import Mathlib

/-!
Shallow embedding of `src/watcher/portfs.cpp` (the Solaris event-port backend
of the watchman file-watching service): the path registry (`port_files` hash
table), `do_watch` (arming a path), and `consumeNotify` (draining a batch of
native events), together with the claims about them.
-/

set_option autoImplicit false

namespace Watchman.PortFS

/-! ### Native flag constants

Bit values from the Solaris `sys/port.h` header (an OS header, not repository
code); the repository refers to them only by name.  Only distinctness of the
bits matters for the embedded code. -/

def FILE_ACCESS : Nat := 0x00000001
def FILE_MODIFIED : Nat := 0x00000002
def FILE_ATTRIB : Nat := 0x00000004
def FILE_NOFOLLOW : Nat := 0x10000000
def FILE_DELETE : Nat := 0x00000010
def FILE_RENAME_TO : Nat := 0x00000020
def FILE_RENAME_FROM : Nat := 0x00000040
def UNMOUNTED : Nat := 0x20000000
def MOUNTEDOVER : Nat := 0x40000000

/-- `WATCHMAN_PORT_EVENTS` as defined at the top of portfs.cpp. -/
def WATCHMAN_PORT_EVENTS : Nat := FILE_MODIFIED ||| FILE_ATTRIB ||| FILE_NOFOLLOW

/-- Modelled from the spec: the per-call batch ceiling constant
`WATCHMAN_BATCH_LIMIT` is defined in `watchman.h`, which is not under `src/`;
the spec only calls it "a per-call batch ceiling constant", so its concrete
value is irrelevant to every statement below (all proofs hold for any value). -/
def WATCHMAN_BATCH_LIMIT : Nat := 16384

/-! ### Data model -/

/-- `struct stat` timestamps used by `make_port_file` (`st_atim`, `st_mtim`,
`st_ctim`), each modelled as a single number. -/
structure Stat where
  st_atim : Nat
  st_mtim : Nat
  st_ctim : Nat
deriving Repr, DecidableEq

/-- `struct watchman_port_file`: the `file_obj_t` fields plus the owned name.
`fo_name` aliases `name->buf` in the C code, so both fields are set from the
same string. -/
structure WatchmanPortFile where
  fo_name : String
  fo_atime : Nat
  fo_mtime : Nat
  fo_ctime : Nat
  name : String
deriving Repr, DecidableEq

/-- `make_port_file` (the non-failing branch; allocation failure is an
environment choice consumed by `do_watch`). -/
def make_port_file (name : String) (st : Stat) : WatchmanPortFile :=
  { fo_name := name
    fo_atime := st.st_atim
    fo_mtime := st.st_mtim
    fo_ctime := st.st_ctim
    name := name }

/-- The `port_files` hash table, keyed by path name (`w_ht_t` with
`port_file_funcs`), modelled as an association list with at most one live
entry per key maintained by the operations. -/
abbrev Registry := List (String × WatchmanPortFile)

/-- `w_ht_get`. -/
def w_ht_get : Registry → String → Option WatchmanPortFile
  | [], _ => none
  | (k, v) :: rest, name => if k = name then some v else w_ht_get rest name

/-- `w_ht_del`: removes the entry for a key if present. -/
def w_ht_del : Registry → String → Registry
  | [], _ => []
  | (k, v) :: rest, name =>
    if k = name then w_ht_del rest name else (k, v) :: w_ht_del rest name

/-- `w_ht_set` (the non-failing branch): replace if the key is present,
otherwise insert. -/
def w_ht_set : Registry → String → WatchmanPortFile → Registry
  | [], name, v => [(name, v)]
  | (k, w) :: rest, name, v =>
    if k = name then (name, v) :: rest else (k, w) :: w_ht_set rest name v

/-- Number of live entries for a key. -/
def countKey : Registry → String → Nat
  | [], _ => 0
  | (k, _) :: rest, name => (if k = name then 1 else 0) + countKey rest name

/-- The `PortFSWatcher` state touched by the embedded operations: the
`port_files` registry.  (`port_fd` and the mutex are environment data.) -/
structure PortFSWatcher where
  port_files : Registry
deriving Repr, DecidableEq

/-- Registry well-formedness: at most one entry per key (the hash-table
invariant). -/
def registryWF (w : PortFSWatcher) : Prop :=
  (w.port_files.map Prod.fst).Nodup

instance (w : PortFSWatcher) : Decidable (registryWF w) := by
  unfold registryWF; infer_instance

/-- The watch root state visible to this backend: the root path and the
cancellation flag set by `w_root_cancel`. -/
structure WRoot where
  root_path : String
  cancelled : Bool
deriving Repr, DecidableEq

/-- `w_root_cancel`: the one-way transition to the cancelled state. -/
def w_root_cancel (r : WRoot) : WRoot := { r with cancelled := true }

/-! ### do_watch -/

/-- Environment choices for one `do_watch` call: whether `calloc` inside
`make_port_file` fails, whether `w_ht_set` fails, and whether
`port_associate` fails. -/
structure ArmEnv where
  calloc_fails : Bool
  ht_set_fails : Bool
  port_associate_fails : Bool
deriving Repr, DecidableEq

/-- `PortFSWatcher::do_watch` (portfs.cpp lines 128-168): return success at
once if the name is already registered; otherwise build a port file, insert
it, and `port_associate` it, rolling the insertion back with `w_ht_del` when
the association fails. -/
def do_watch (env : ArmEnv) (w : PortFSWatcher) (name : String) (st : Stat) :
    Bool × PortFSWatcher :=
  match w_ht_get w.port_files name with
  | some _ => (true, w)
  | none =>
    if env.calloc_fails then
      (false, w)
    else
      let f := make_port_file name st
      if env.ht_set_fails then
        (false, w)
      else
        let w1 : PortFSWatcher := { port_files := w_ht_set w.port_files name f }
        if env.port_associate_fails then
          (false, { port_files := w_ht_del w1.port_files name })
        else
          (true, w1)

/-! ### consumeNotify -/

/-- One `port_event_t` as drained by `port_getn`: the native flag word and the
`portev_user` pointer, which `do_watch` registered as the
`watchman_port_file`. -/
structure PortEvent where
  portev_events : Nat
  portev_user : WatchmanPortFile
deriving Repr, DecidableEq

/-- Outcome of the `port_getn` call: success, failure with `errno == EINTR`,
or failure with any other `errno`. -/
inductive GetnOutcome where
  | getnOk
  | getnEintr
  | getnOther
deriving Repr, DecidableEq

/-- Environment for one `consumeNotify` call: the `port_getn` outcome and, on
success, the events the native port delivers (of which at most
`WATCHMAN_BATCH_LIMIT` fit the `portevents` array). -/
structure DrainEnv where
  outcome : GetnOutcome
  pending : List PortEvent
deriving Repr, DecidableEq

/-- `w_log(W_LOG_FATAL, ...)` aborts the process; the embedded
`consumeNotify` surfaces it as an error value instead of returning. -/
inductive FatalError where
  | port_getn_failed
deriving Repr, DecidableEq

/-- Origin flag of a pending-change push: `W_PENDING_VIA_NOTIFY` or a
stat-initiated push. -/
inductive PendingOrigin where
  | notify
  | stat
deriving Repr, DecidableEq

/-- One push into the `watchman_pending_collection`:
`w_pending_coll_add(coll, name, now, flags)`.  `observedAt` is an
`Option Nat` so that the uninitialized `struct timeval now` of
`consumeNotify` (declared at line 223 and never set — there is no
`gettimeofday` call in the function) can be modelled as `none`. -/
structure PendingChangeRecord where
  path : String
  observedAt : Option Nat
  isRecursive : Bool
  origin : PendingOrigin
deriving Repr, DecidableEq

/-- The record pushed for one non-root-loss event:
`w_pending_coll_add(coll, f->name, now, W_PENDING_RECURSIVE|W_PENDING_VIA_NOTIFY)`. -/
def pendingRec (now : Option Nat) (e : PortEvent) : PendingChangeRecord :=
  { path := e.portev_user.name
    observedAt := now
    isRecursive := true
    origin := PendingOrigin.notify }

/-- The root-loss flag mask tested at portfs.cpp line 260. -/
def rootLossMask : Nat := FILE_RENAME_FROM ||| UNMOUNTED ||| MOUNTEDOVER ||| FILE_DELETE

/-- The root-loss condition of portfs.cpp lines 260-261:
`(pe & (FILE_RENAME_FROM|UNMOUNTED|MOUNTEDOVER|FILE_DELETE)) &&
 w_string_equal(f->name, root->root_path)`. -/
def isRootLoss (root : WRoot) (e : PortEvent) : Bool :=
  (e.portev_events &&& rootLossMask != 0) && (e.portev_user.name == root.root_path)

/-- Result of one `consumeNotify` call: the returned boolean, the updated
watcher and root states, the collector contents (as the list of pushes), and
the number of loop iterations executed. -/
structure ConsumeOut where
  ret : Bool
  watcher : PortFSWatcher
  root : WRoot
  coll : List PendingChangeRecord
  iters : Nat
deriving Repr, DecidableEq

/-- The `for (i = 0; i < n; i++)` loop of `consumeNotify` (portfs.cpp lines
249-279), one constructor case per event: on root loss, cancel the root,
return `false` and stop; otherwise push a pending record and delete the
registry entry, then continue. -/
def consume_loop (now : Option Nat) (w : PortFSWatcher) (root : WRoot)
    (coll : List PendingChangeRecord) : List PortEvent → ConsumeOut
  | [] => { ret := true, watcher := w, root := root, coll := coll, iters := 0 }
  | e :: rest =>
    if isRootLoss root e then
      { ret := false, watcher := w, root := w_root_cancel root, coll := coll, iters := 1 }
    else
      let coll1 := coll ++ [pendingRec now e]
      let w1 : PortFSWatcher := { port_files := w_ht_del w.port_files e.portev_user.name }
      let out := consume_loop now w1 root coll1 rest
      { out with iters := out.iters + 1 }

/-- `PortFSWatcher::consumeNotify` (portfs.cpp lines 219-283).  `struct
timeval now` is declared at line 223 and never initialized — `consumeNotify`
contains no `gettimeofday` call — so the local `now` is modelled as `none`.
`port_getn` failure with `errno == EINTR` returns `false`; any other failure
hits `w_log(W_LOG_FATAL, ...)`, which aborts instead of returning.  On
success at most `WATCHMAN_BATCH_LIMIT` events (the size of the `portevents`
array) are drained; an empty drain returns `false`. -/
def consumeNotify (env : DrainEnv) (w : PortFSWatcher) (root : WRoot)
    (coll : List PendingChangeRecord) : Except FatalError ConsumeOut :=
  let now : Option Nat := none
  match env.outcome with
  | GetnOutcome.getnEintr =>
    Except.ok { ret := false, watcher := w, root := root, coll := coll, iters := 0 }
  | GetnOutcome.getnOther =>
    Except.error FatalError.port_getn_failed
  | GetnOutcome.getnOk =>
    let events := env.pending.take WATCHMAN_BATCH_LIMIT
    if events.isEmpty then
      Except.ok { ret := false, watcher := w, root := root, coll := coll, iters := 0 }
    else
      Except.ok (consume_loop now w root coll events)

/-! ### Registry lemmas -/

theorem w_ht_get_del_self (h : Registry) (k : String) :
    w_ht_get (w_ht_del h k) k = none := by
  induction h with
  | nil => rfl
  | cons p rest ih =>
    obtain ⟨k1, v1⟩ := p
    by_cases hk : k1 = k <;> simp [w_ht_del, w_ht_get, hk, ih]

theorem w_ht_get_del_none (h : Registry) (k k2 : String)
    (hget : w_ht_get h k = none) : w_ht_get (w_ht_del h k2) k = none := by
  induction h with
  | nil => rfl
  | cons p rest ih =>
    obtain ⟨k1, v1⟩ := p
    by_cases hk : k1 = k
    · simp [w_ht_get, hk] at hget
    · simp [w_ht_get, hk] at hget
      by_cases hk2 : k1 = k2 <;> simp [w_ht_del, w_ht_get, hk, hk2, ih hget]

theorem w_ht_get_set_self (h : Registry) (k : String) (v : WatchmanPortFile) :
    w_ht_get (w_ht_set h k v) k = some v := by
  induction h with
  | nil => simp [w_ht_set, w_ht_get]
  | cons p rest ih =>
    obtain ⟨k1, v1⟩ := p
    by_cases hk : k1 = k <;> simp [w_ht_set, w_ht_get, hk, ih]

theorem countKey_eq_zero_of_get_none (h : Registry) (k : String)
    (hget : w_ht_get h k = none) : countKey h k = 0 := by
  induction h with
  | nil => rfl
  | cons p rest ih =>
    obtain ⟨k1, v1⟩ := p
    by_cases hk : k1 = k
    · simp [w_ht_get, hk] at hget
    · simp [w_ht_get, hk] at hget
      simp [countKey, hk, ih hget]

theorem countKey_eq_zero_of_not_mem (h : Registry) (k : String)
    (hk : k ∉ h.map Prod.fst) : countKey h k = 0 := by
  induction h with
  | nil => rfl
  | cons p rest ih =>
    obtain ⟨k1, v1⟩ := p
    simp only [List.map_cons, List.mem_cons] at hk
    push_neg at hk
    have hne : ¬ k1 = k := fun hh => hk.1 hh.symm
    simp [countKey, hne, ih hk.2]

theorem countKey_set_of_get_none (h : Registry) (k : String) (v : WatchmanPortFile)
    (hget : w_ht_get h k = none) : countKey (w_ht_set h k v) k = 1 := by
  induction h with
  | nil => simp [w_ht_set, countKey]
  | cons p rest ih =>
    obtain ⟨k1, v1⟩ := p
    by_cases hk : k1 = k
    · simp [w_ht_get, hk] at hget
    · simp [w_ht_get, hk] at hget
      simp [w_ht_set, countKey, hk, ih hget]

theorem countKey_eq_one_of_wf (h : Registry) (k : String) (f : WatchmanPortFile)
    (hwf : (h.map Prod.fst).Nodup) (hget : w_ht_get h k = some f) :
    countKey h k = 1 := by
  induction h with
  | nil => simp [w_ht_get] at hget
  | cons p rest ih =>
    obtain ⟨k1, v1⟩ := p
    simp only [List.map_cons, List.nodup_cons] at hwf
    by_cases hk : k1 = k
    · subst hk
      simp [countKey]
      exact countKey_eq_zero_of_not_mem rest k1 hwf.1
    · simp [w_ht_get, hk] at hget
      simp [countKey, hk, ih hwf.2 hget]

theorem w_ht_del_set_of_get_none (h : Registry) (k : String) (v : WatchmanPortFile)
    (hget : w_ht_get h k = none) : w_ht_del (w_ht_set h k v) k = h := by
  induction h with
  | nil => simp [w_ht_set, w_ht_del]
  | cons p rest ih =>
    obtain ⟨k1, v1⟩ := p
    by_cases hk : k1 = k
    · simp [w_ht_get, hk] at hget
    · simp [w_ht_get, hk] at hget
      simp [w_ht_set, w_ht_del, hk, ih hget]

/-! ### Loop characterization lemmas -/

/-- Folding the per-event `w_ht_del` over a list of events, as the
`consumeNotify` loop does for every event it processes. -/
def w_del_names (w : PortFSWatcher) (es : List PortEvent) : PortFSWatcher :=
  { port_files := es.foldl (fun h e => w_ht_del h e.portev_user.name) w.port_files }

theorem w_del_names_nil (w : PortFSWatcher) : w_del_names w [] = w := rfl

theorem w_del_names_cons (w : PortFSWatcher) (e : PortEvent) (es : List PortEvent) :
    w_del_names w (e :: es) =
      w_del_names { port_files := w_ht_del w.port_files e.portev_user.name } es := rfl

theorem w_del_names_get_none (es : List PortEvent) (w : PortFSWatcher) (k : String)
    (hget : w_ht_get w.port_files k = none) :
    w_ht_get (w_del_names w es).port_files k = none := by
  induction es generalizing w with
  | nil => exact hget
  | cons e rest ih =>
    rw [w_del_names_cons]
    exact ih _ (w_ht_get_del_none _ _ _ hget)

theorem w_del_names_get_mem_none (es : List PortEvent) (w : PortFSWatcher)
    (e : PortEvent) (he : e ∈ es) :
    w_ht_get (w_del_names w es).port_files e.portev_user.name = none := by
  induction es generalizing w with
  | nil => cases he
  | cons a rest ih =>
    rw [w_del_names_cons]
    rcases List.mem_cons.mp he with rfl | hmem
    · exact w_del_names_get_none _ _ _ (w_ht_get_del_self _ _)
    · exact ih _ hmem

/-- A full run of the loop over a batch with no root-loss event: every event
contributes one pending record and one registry deletion, the root is left
untouched, and the loop returns `true` after one iteration per event. -/
theorem consume_loop_no_root_loss (now : Option Nat) (root : WRoot)
    (es : List PortEvent) (w : PortFSWatcher) (coll : List PendingChangeRecord)
    (hno : ∀ e ∈ es, isRootLoss root e = false) :
    consume_loop now w root coll es =
      { ret := true
        watcher := w_del_names w es
        root := root
        coll := coll ++ es.map (pendingRec now)
        iters := es.length } := by
  induction es generalizing w coll with
  | nil => simp [consume_loop, w_del_names_nil]
  | cons e rest ih =>
    have he : isRootLoss root e = false := hno e (List.mem_cons_self e rest)
    have hrest : ∀ x ∈ rest, isRootLoss root x = false :=
      fun x hx => hno x (List.mem_cons_of_mem e hx)
    simp only [consume_loop, he, Bool.false_eq_true, if_false,
      ih _ _ hrest, w_del_names_cons]
    simp [List.append_assoc]

/-- A run of the loop over a batch whose first root-loss event is `ecan`:
the cancel-free part of the batch before it is processed normally, then the
root is cancelled and the loop stops, leaving the rest of the batch (and the
registry entries of `ecan` and everything after it) untouched. -/
theorem consume_loop_root_loss (now : Option Nat) (root : WRoot)
    (pre post : List PortEvent) (ecan : PortEvent)
    (w : PortFSWatcher) (coll : List PendingChangeRecord)
    (hpre : ∀ e ∈ pre, isRootLoss root e = false)
    (hcan : isRootLoss root ecan = true) :
    consume_loop now w root coll (pre ++ ecan :: post) =
      { ret := false
        watcher := w_del_names w pre
        root := w_root_cancel root
        coll := coll ++ pre.map (pendingRec now)
        iters := pre.length + 1 } := by
  induction pre generalizing w coll with
  | nil => simp [consume_loop, hcan, w_del_names_nil]
  | cons e rest ih =>
    have he : isRootLoss root e = false := hpre e (List.mem_cons_self e rest)
    have hrest : ∀ x ∈ rest, isRootLoss root x = false :=
      fun x hx => hpre x (List.mem_cons_of_mem e hx)
    have step := ih { port_files := w_ht_del w.port_files e.portev_user.name }
      (coll ++ [pendingRec now e]) hrest
    simp only [List.cons_append, consume_loop, he, Bool.false_eq_true, if_false,
      List.append_eq]
    rw [step]
    simp [w_del_names_cons, List.append_assoc]

theorem consume_loop_ret_true_iff (now : Option Nat) (root : WRoot)
    (es : List PortEvent) (w : PortFSWatcher) (coll : List PendingChangeRecord) :
    (consume_loop now w root coll es).ret = true ↔
      ∀ e ∈ es, isRootLoss root e = false := by
  induction es generalizing w coll with
  | nil => simp [consume_loop]
  | cons e rest ih =>
    by_cases he : isRootLoss root e
    · simp [consume_loop, he]
    · simp only [Bool.not_eq_true] at he
      simp [consume_loop, he, ih]

theorem consume_loop_iters_le (now : Option Nat) (root : WRoot)
    (es : List PortEvent) (w : PortFSWatcher) (coll : List PendingChangeRecord) :
    (consume_loop now w root coll es).iters ≤ es.length := by
  induction es generalizing w coll with
  | nil => simp [consume_loop]
  | cons e rest ih =>
    by_cases he : isRootLoss root e
    · simp [consume_loop, he]
    · simp only [Bool.not_eq_true] at he
      simp only [consume_loop, he, Bool.false_eq_true, if_false, List.length_cons]
      exact Nat.add_le_add_right (ih _ _) 1

theorem consume_loop_coll_le (now : Option Nat) (root : WRoot)
    (es : List PortEvent) (w : PortFSWatcher) (coll : List PendingChangeRecord) :
    (consume_loop now w root coll es).coll.length ≤ coll.length + es.length := by
  induction es generalizing w coll with
  | nil => simp [consume_loop]
  | cons e rest ih =>
    by_cases he : isRootLoss root e
    · simp [consume_loop, he]
    · simp only [Bool.not_eq_true] at he
      simp only [consume_loop, he, Bool.false_eq_true, if_false, List.length_cons]
      calc (consume_loop now _ root (coll ++ [pendingRec now e]) rest).coll.length
          ≤ (coll ++ [pendingRec now e]).length + rest.length := ih _ _
        _ = coll.length + (rest.length + 1) := by simp [Nat.add_assoc, Nat.add_comm 1]

theorem consume_loop_get_none_kept (now : Option Nat) (root : WRoot)
    (es : List PortEvent) (w : PortFSWatcher) (coll : List PendingChangeRecord)
    (k : String) (hget : w_ht_get w.port_files k = none) :
    w_ht_get (consume_loop now w root coll es).watcher.port_files k = none := by
  induction es generalizing w coll with
  | nil => exact hget
  | cons e rest ih =>
    by_cases he : isRootLoss root e
    · simpa [consume_loop, he] using hget
    · simp only [Bool.not_eq_true] at he
      simp only [consume_loop, he, Bool.false_eq_true, if_false]
      exact ih _ _ (w_ht_get_del_none _ _ _ hget)

/-- Every event in a cancel-free leading part of the batch has its registry
entry removed by the loop, whatever the remainder of the batch does. -/
theorem consume_loop_removes_pre (now : Option Nat) (root : WRoot)
    (pre post : List PortEvent) (w : PortFSWatcher) (coll : List PendingChangeRecord)
    (e : PortEvent) (hpre : ∀ x ∈ pre, isRootLoss root x = false) (he : e ∈ pre) :
    w_ht_get (consume_loop now w root coll (pre ++ post)).watcher.port_files
      e.portev_user.name = none := by
  induction pre generalizing w coll with
  | nil => cases he
  | cons a rest ih =>
    have ha : isRootLoss root a = false := hpre a (List.mem_cons_self a rest)
    have hrest : ∀ x ∈ rest, isRootLoss root x = false :=
      fun x hx => hpre x (List.mem_cons_of_mem a hx)
    simp only [List.cons_append, consume_loop, ha, Bool.false_eq_true, if_false]
    rcases List.mem_cons.mp he with rfl | hmem
    · exact consume_loop_get_none_kept _ _ _ _ _ _ (w_ht_get_del_self _ _)
    · exact ih _ _ hrest hmem

/-! ### consumeNotify unfolding helpers -/

theorem consumeNotify_getnEintr (env : DrainEnv) (w : PortFSWatcher) (root : WRoot)
    (coll : List PendingChangeRecord) (houtcome : env.outcome = GetnOutcome.getnEintr) :
    consumeNotify env w root coll =
      Except.ok { ret := false, watcher := w, root := root, coll := coll, iters := 0 } := by
  simp [consumeNotify, houtcome]

theorem consumeNotify_getnOther (env : DrainEnv) (w : PortFSWatcher) (root : WRoot)
    (coll : List PendingChangeRecord) (houtcome : env.outcome = GetnOutcome.getnOther) :
    consumeNotify env w root coll = Except.error FatalError.port_getn_failed := by
  simp [consumeNotify, houtcome]

theorem consumeNotify_getnOk_empty (env : DrainEnv) (w : PortFSWatcher) (root : WRoot)
    (coll : List PendingChangeRecord) (houtcome : env.outcome = GetnOutcome.getnOk)
    (hemp : env.pending.take WATCHMAN_BATCH_LIMIT = []) :
    consumeNotify env w root coll =
      Except.ok { ret := false, watcher := w, root := root, coll := coll, iters := 0 } := by
  simp [consumeNotify, houtcome, hemp]

theorem consumeNotify_getnOk_nonempty (env : DrainEnv) (w : PortFSWatcher) (root : WRoot)
    (coll : List PendingChangeRecord) (houtcome : env.outcome = GetnOutcome.getnOk)
    (hne : env.pending.take WATCHMAN_BATCH_LIMIT ≠ []) :
    consumeNotify env w root coll =
      Except.ok
        (consume_loop none w root coll (env.pending.take WATCHMAN_BATCH_LIMIT)) := by
  have hemp : (env.pending.take WATCHMAN_BATCH_LIMIT).isEmpty = false := by
    cases h : env.pending.take WATCHMAN_BATCH_LIMIT with
    | nil => exact absurd h hne
    | cons a r => rfl
  simp [consumeNotify, houtcome, hemp]

/-! ### Concrete sample values -/

/-- Zeroed stat timestamps for concrete instances. -/
def stat0 : Stat := { st_atim := 0, st_mtim := 0, st_ctim := 0 }

/-- Port file registered for the root path. -/
def rootFile : WatchmanPortFile := make_port_file "/r" stat0

/-- Port file registered for a child path of the root. -/
def childFile : WatchmanPortFile := make_port_file "/r/a" stat0

/-- A watcher whose registry holds the root and one child entry. -/
def w0 : PortFSWatcher := { port_files := [("/r", rootFile), ("/r/a", childFile)] }

/-- An active watch root at "/r". -/
def root0 : WRoot := { root_path := "/r", cancelled := false }

/-- Native deletion event for the root path itself. -/
def evRootDel : PortEvent := { portev_events := FILE_DELETE, portev_user := rootFile }

/-- Native modification event for the child path. -/
def evChildMod : PortEvent := { portev_events := FILE_MODIFIED, portev_user := childFile }

/-! ### Claims -/

/-- C1: if some drained event of the batch carries one of the root-loss flags
(FILE_DELETE, FILE_RENAME_FROM, UNMOUNTED, MOUNTEDOVER) and its path equals
the root path — the batch splitting as a cancel-free part `pre` followed by
the first such event `ecan` — then `consumeNotify` cancels the root, returns
`false`, stops after processing `pre` and `ecan` (`iters = pre.length + 1`),
and the records already pushed for the paths of `pre` are retained in the
collector. -/
theorem consumeNotify_root_loss_cancels (env : DrainEnv) (w : PortFSWatcher)
    (root : WRoot) (coll : List PendingChangeRecord)
    (pre post : List PortEvent) (ecan : PortEvent)
    (houtcome : env.outcome = GetnOutcome.getnOk)
    (hsplit : env.pending.take WATCHMAN_BATCH_LIMIT = pre ++ ecan :: post)
    (hpre : ∀ e ∈ pre, isRootLoss root e = false)
    (hcan : isRootLoss root ecan = true) :
    consumeNotify env w root coll =
      Except.ok
        { ret := false
          watcher := w_del_names w pre
          root := w_root_cancel root
          coll := coll ++ pre.map (pendingRec none)
          iters := pre.length + 1 } := by
  have hne : env.pending.take WATCHMAN_BATCH_LIMIT ≠ [] := by
    rw [hsplit]; cases pre <;> simp
  rw [consumeNotify_getnOk_nonempty env w root coll houtcome hne, hsplit,
    consume_loop_root_loss none root pre post ecan w coll hpre hcan]

/-- C1 witness: a batch of a child modification followed by a root deletion
cancels the root after two iterations, keeping the child's record. -/
theorem consumeNotify_root_loss_cancels_witness :
    (DrainEnv.mk GetnOutcome.getnOk [evChildMod, evRootDel]).outcome = GetnOutcome.getnOk ∧
    (DrainEnv.mk GetnOutcome.getnOk [evChildMod, evRootDel]).pending.take
      WATCHMAN_BATCH_LIMIT = [evChildMod] ++ evRootDel :: [] ∧
    (∀ e ∈ [evChildMod], isRootLoss root0 e = false) ∧
    isRootLoss root0 evRootDel = true ∧
    consumeNotify (DrainEnv.mk GetnOutcome.getnOk [evChildMod, evRootDel]) w0 root0 [] =
      Except.ok
        { ret := false
          watcher := w_del_names w0 [evChildMod]
          root := w_root_cancel root0
          coll := [] ++ [evChildMod].map (pendingRec none)
          iters := [evChildMod].length + 1 } :=
  ⟨rfl, by decide, by decide, by decide,
    consumeNotify_root_loss_cancels _ w0 root0 [] [evChildMod] [] evRootDel rfl
      (by decide) (by decide) (by decide)⟩

/-- C2 counterexample: a root-deletion event for the root path is drained,
yet after the call the registry entry for its token is still present — the
root-loss branch returns before the `w_ht_del`, so the removal is not
unconditional. -/
theorem consumeNotify_cancel_keeps_registry_entry :
    consumeNotify (DrainEnv.mk GetnOutcome.getnOk [evRootDel]) w0 root0 [] =
      Except.ok
        { ret := false
          watcher := w0
          root := { root_path := "/r", cancelled := true }
          coll := []
          iters := 1 } ∧
    w_ht_get w0.port_files "/r" = some rootFile := by
  constructor
  · rfl
  · rfl

/-- C2 (amended): the registry entry for a drained event's token is removed
for every event the loop actually processes past the root-loss check — in
particular for every event of any cancel-free leading part of the batch, and
hence for every drained event whenever no event of the batch satisfies the
root-loss condition; the entries of a root-loss event and of the events after
it are not removed. -/
theorem consumeNotify_removes_entries_before_cancel (env : DrainEnv)
    (w : PortFSWatcher) (root : WRoot) (coll : List PendingChangeRecord)
    (pre post : List PortEvent) (e : PortEvent)
    (houtcome : env.outcome = GetnOutcome.getnOk)
    (hsplit : env.pending.take WATCHMAN_BATCH_LIMIT = pre ++ post)
    (hpre : ∀ x ∈ pre, isRootLoss root x = false)
    (he : e ∈ pre) :
    ∃ out, consumeNotify env w root coll = Except.ok out ∧
      w_ht_get out.watcher.port_files e.portev_user.name = none := by
  have hne : env.pending.take WATCHMAN_BATCH_LIMIT ≠ [] := by
    rw [hsplit]
    cases pre with
    | nil => cases he
    | cons a r => simp
  refine ⟨_, consumeNotify_getnOk_nonempty env w root coll houtcome hne, ?_⟩
  rw [hsplit]
  exact consume_loop_removes_pre none root pre post w coll e hpre he

/-- C2 witness: after draining a single child-modification event, the child's
registry entry is gone. -/
theorem consumeNotify_removes_entries_before_cancel_witness :
    (DrainEnv.mk GetnOutcome.getnOk [evChildMod]).outcome = GetnOutcome.getnOk ∧
    (DrainEnv.mk GetnOutcome.getnOk [evChildMod]).pending.take WATCHMAN_BATCH_LIMIT
      = [evChildMod] ++ [] ∧
    (∀ x ∈ [evChildMod], isRootLoss root0 x = false) ∧
    evChildMod ∈ [evChildMod] ∧
    (∃ out, consumeNotify (DrainEnv.mk GetnOutcome.getnOk [evChildMod]) w0 root0 [] =
        Except.ok out ∧
      w_ht_get out.watcher.port_files evChildMod.portev_user.name = none) :=
  ⟨rfl, by decide, by decide, by decide,
    consumeNotify_removes_entries_before_cancel _ w0 root0 [] [evChildMod] [] evChildMod
      rfl (by decide) (by decide) (by decide)⟩

/-- C3 counterexample: in a batch whose first event deletes the root, the
following child event is drained and does not satisfy the root-loss
condition, yet the root IS cancelled by the call and no record is pushed for
the child's path (the collector stays empty). -/
theorem consumeNotify_event_after_cancel_unprocessed :
    isRootLoss root0 evChildMod = false ∧
    consumeNotify (DrainEnv.mk GetnOutcome.getnOk [evRootDel, evChildMod]) w0 root0 [] =
      Except.ok
        { ret := false
          watcher := w0
          root := { root_path := "/r", cancelled := true }
          coll := []
          iters := 1 } := by
  constructor
  · decide
  · rfl

/-- C3 (amended): when no drained event of the batch satisfies the root-loss
condition (and at least one event was drained), the root is not cancelled and
exactly one Pending Change Record is pushed per drained event — the record
for that event's path with `isRecursive = true` and `origin = Notify`. An
event drained after a root-loss event is not processed at all. -/
theorem consumeNotify_no_root_loss_pushes_records (env : DrainEnv)
    (w : PortFSWatcher) (root : WRoot) (coll : List PendingChangeRecord)
    (houtcome : env.outcome = GetnOutcome.getnOk)
    (hne : env.pending.take WATCHMAN_BATCH_LIMIT ≠ [])
    (hno : ∀ e ∈ env.pending.take WATCHMAN_BATCH_LIMIT, isRootLoss root e = false) :
    consumeNotify env w root coll =
      Except.ok
        { ret := true
          watcher := w_del_names w (env.pending.take WATCHMAN_BATCH_LIMIT)
          root := root
          coll := coll ++ (env.pending.take WATCHMAN_BATCH_LIMIT).map (pendingRec none)
          iters := (env.pending.take WATCHMAN_BATCH_LIMIT).length } := by
  rw [consumeNotify_getnOk_nonempty env w root coll houtcome hne,
    consume_loop_no_root_loss none root _ w coll hno]

/-- C3 witness: draining one child modification pushes exactly its record and
leaves the root active. -/
theorem consumeNotify_no_root_loss_pushes_records_witness :
    (DrainEnv.mk GetnOutcome.getnOk [evChildMod]).outcome = GetnOutcome.getnOk ∧
    (DrainEnv.mk GetnOutcome.getnOk [evChildMod]).pending.take WATCHMAN_BATCH_LIMIT ≠ [] ∧
    (∀ e ∈ (DrainEnv.mk GetnOutcome.getnOk [evChildMod]).pending.take WATCHMAN_BATCH_LIMIT,
      isRootLoss root0 e = false) ∧
    consumeNotify (DrainEnv.mk GetnOutcome.getnOk [evChildMod]) w0 root0 [] =
      Except.ok
        { ret := true
          watcher := w_del_names w0
            ((DrainEnv.mk GetnOutcome.getnOk [evChildMod]).pending.take WATCHMAN_BATCH_LIMIT)
          root := root0
          coll := [] ++ ((DrainEnv.mk GetnOutcome.getnOk [evChildMod]).pending.take
            WATCHMAN_BATCH_LIMIT).map (pendingRec none)
          iters := ((DrainEnv.mk GetnOutcome.getnOk [evChildMod]).pending.take
            WATCHMAN_BATCH_LIMIT).length } :=
  ⟨rfl, by decide, by decide,
    consumeNotify_no_root_loss_pushes_records _ w0 root0 [] rfl (by decide) (by decide)⟩

/-- C4: evidence for the code bug — `consumeNotify` declares `struct timeval
now` at line 223 and never initializes it (there is no `gettimeofday` call in
the function), so the record pushed for a drained child event carries the
uninitialized timestamp (modelled as `none`) rather than the drain time. -/
theorem consumeNotify_observedAt_uninitialized :
    consumeNotify (DrainEnv.mk GetnOutcome.getnOk [evChildMod]) w0 root0 [] =
      Except.ok
        { ret := true
          watcher := { port_files := [("/r", rootFile)] }
          root := root0
          coll := [{ path := "/r/a", observedAt := none, isRecursive := true,
                     origin := PendingOrigin.notify }]
          iters := 1 } := by
  rfl

/-- C5: a `port_getn` failure with `errno == EINTR` makes `consumeNotify`
return `false` with the watcher state, root state (hence root still active)
and collector unchanged; a failure with any other `errno` hits
`w_log(W_LOG_FATAL, ...)`, which terminates the watch loop instead of
returning. -/
theorem consumeNotify_eintr_transient_other_fatal (env : DrainEnv)
    (w : PortFSWatcher) (root : WRoot) (coll : List PendingChangeRecord) :
    (env.outcome = GetnOutcome.getnEintr →
      consumeNotify env w root coll =
        Except.ok { ret := false, watcher := w, root := root, coll := coll, iters := 0 }) ∧
    (env.outcome = GetnOutcome.getnOther →
      consumeNotify env w root coll = Except.error FatalError.port_getn_failed) :=
  ⟨fun h => consumeNotify_getnEintr env w root coll h,
   fun h => consumeNotify_getnOther env w root coll h⟩

/-- C5 witness: both failure modes at concrete inputs. -/
theorem consumeNotify_eintr_transient_other_fatal_witness :
    ((DrainEnv.mk GetnOutcome.getnEintr []).outcome = GetnOutcome.getnEintr ∧
      consumeNotify (DrainEnv.mk GetnOutcome.getnEintr []) w0 root0 [] =
        Except.ok { ret := false, watcher := w0, root := root0, coll := [], iters := 0 }) ∧
    ((DrainEnv.mk GetnOutcome.getnOther []).outcome = GetnOutcome.getnOther ∧
      consumeNotify (DrainEnv.mk GetnOutcome.getnOther []) w0 root0 [] =
        Except.error FatalError.port_getn_failed) :=
  ⟨⟨rfl, (consumeNotify_eintr_transient_other_fatal _ w0 root0 []).1 rfl⟩,
   ⟨rfl, (consumeNotify_eintr_transient_other_fatal _ w0 root0 []).2 rfl⟩⟩

/-- C6: arming the same path twice without an intervening disarm is
idempotent.  After a first successful `do_watch` of `name`, a second
`do_watch` of `name` returns success and leaves the watcher unchanged,
whatever the environment of the second call would have done to a fresh arm
(so neither `w_ht_set` nor `port_associate` is reached again), and the
registry holds exactly one entry for `name`. -/
theorem do_watch_idempotent (env2 : ArmEnv) (w : PortFSWatcher) (name : String)
    (st st2 : Stat) (hwf : registryWF w) :
    (do_watch (ArmEnv.mk false false false) w name st).1 = true ∧
    do_watch env2 (do_watch (ArmEnv.mk false false false) w name st).2 name st2 =
      (true, (do_watch (ArmEnv.mk false false false) w name st).2) ∧
    countKey (do_watch (ArmEnv.mk false false false) w name st).2.port_files name = 1 := by
  cases hget : w_ht_get w.port_files name with
  | some f =>
    have h1 : do_watch (ArmEnv.mk false false false) w name st = (true, w) := by
      simp [do_watch, hget]
    rw [h1]
    refine ⟨rfl, ?_, ?_⟩
    · simp [do_watch, hget]
    · exact countKey_eq_one_of_wf _ _ f hwf hget
  | none =>
    have h1 : do_watch (ArmEnv.mk false false false) w name st =
        (true, { port_files := w_ht_set w.port_files name (make_port_file name st) }) := by
      simp [do_watch, hget]
    rw [h1]
    refine ⟨rfl, ?_, ?_⟩
    · simp [do_watch, w_ht_get_set_self]
    · exact countKey_set_of_get_none _ _ _ hget

/-- C6 witness: arming "/r/b" twice on the concrete watcher. -/
theorem do_watch_idempotent_witness :
    registryWF w0 ∧
    ((do_watch (ArmEnv.mk false false false) w0 "/r/b" stat0).1 = true ∧
     do_watch (ArmEnv.mk true true true)
         (do_watch (ArmEnv.mk false false false) w0 "/r/b" stat0).2 "/r/b" stat0 =
       (true, (do_watch (ArmEnv.mk false false false) w0 "/r/b" stat0).2) ∧
     countKey (do_watch (ArmEnv.mk false false false) w0 "/r/b" stat0).2.port_files
       "/r/b" = 1) :=
  ⟨by decide, do_watch_idempotent (ArmEnv.mk true true true) w0 "/r/b" stat0 stat0
    (by decide)⟩

/-- C7: when `port_associate` fails while arming a path that was not already
registered, the freshly inserted registry entry is rolled back — the watcher
returned equals the pre-call watcher — and the call reports failure. -/
theorem do_watch_assoc_failure_rolls_back (w : PortFSWatcher) (name : String)
    (st : Stat) (hget : w_ht_get w.port_files name = none) :
    do_watch (ArmEnv.mk false false true) w name st = (false, w) := by
  simp [do_watch, hget, w_ht_del_set_of_get_none w.port_files name _ hget]

/-- C7 witness: an association failure on "/r/b" leaves the concrete watcher
exactly as it was. -/
theorem do_watch_assoc_failure_rolls_back_witness :
    w_ht_get w0.port_files "/r/b" = none ∧
    do_watch (ArmEnv.mk false false true) w0 "/r/b" stat0 = (false, w0) :=
  ⟨by decide, do_watch_assoc_failure_rolls_back w0 "/r/b" stat0 (by decide)⟩

/-- C8: a `consumeNotify` call that returns processes at most
`WATCHMAN_BATCH_LIMIT` events — its loop runs at most that many iterations
and it pushes at most that many records into the collector. -/
theorem consumeNotify_batch_bounded (env : DrainEnv) (w : PortFSWatcher)
    (root : WRoot) (coll : List PendingChangeRecord) (out : ConsumeOut)
    (hok : consumeNotify env w root coll = Except.ok out) :
    out.iters ≤ WATCHMAN_BATCH_LIMIT ∧
    out.coll.length ≤ coll.length + WATCHMAN_BATCH_LIMIT := by
  have hlen : (env.pending.take WATCHMAN_BATCH_LIMIT).length ≤ WATCHMAN_BATCH_LIMIT := by
    simp [List.length_take]
  cases houtcome : env.outcome with
  | getnEintr =>
    rw [consumeNotify_getnEintr env w root coll houtcome] at hok
    cases hok
    exact ⟨Nat.zero_le _, Nat.le_add_right _ _⟩
  | getnOther =>
    rw [consumeNotify_getnOther env w root coll houtcome] at hok
    cases hok
  | getnOk =>
    by_cases hemp : env.pending.take WATCHMAN_BATCH_LIMIT = []
    · rw [consumeNotify_getnOk_empty env w root coll houtcome hemp] at hok
      cases hok
      exact ⟨Nat.zero_le _, Nat.le_add_right _ _⟩
    · rw [consumeNotify_getnOk_nonempty env w root coll houtcome hemp] at hok
      cases hok
      constructor
      · exact le_trans (consume_loop_iters_le none root _ w coll) hlen
      · exact le_trans (consume_loop_coll_le none root _ w coll)
          (Nat.add_le_add_left hlen _)

/-- C8 witness: the bound at a concrete drained batch. -/
theorem consumeNotify_batch_bounded_witness :
    (consumeNotify (DrainEnv.mk GetnOutcome.getnEintr []) w0 root0 [] =
      Except.ok { ret := false, watcher := w0, root := root0, coll := [], iters := 0 }) ∧
    (({ ret := false, watcher := w0, root := root0, coll := [], iters := 0 } :
        ConsumeOut).iters ≤ WATCHMAN_BATCH_LIMIT ∧
     ({ ret := false, watcher := w0, root := root0, coll := [], iters := 0 } :
        ConsumeOut).coll.length ≤ ([] : List PendingChangeRecord).length +
          WATCHMAN_BATCH_LIMIT) :=
  ⟨rfl, consumeNotify_batch_bounded (DrainEnv.mk GetnOutcome.getnEintr []) w0 root0 []
    { ret := false, watcher := w0, root := root0, coll := [], iters := 0 } rfl⟩

/-- C9: `do_watch` returns `true` exactly when the registry it leaves behind
has a live entry for the path: on success the registry holds exactly one
entry for the path, and on every failure path (allocation failure, hash-table
insertion failure, native association failure) it holds none. -/
theorem do_watch_ret_iff_registered (env : ArmEnv) (w : PortFSWatcher)
    (name : String) (st : Stat) (hwf : registryWF w) :
    ((do_watch env w name st).1 = true ↔
      w_ht_get (do_watch env w name st).2.port_files name ≠ none) ∧
    ((do_watch env w name st).1 = true →
      countKey (do_watch env w name st).2.port_files name = 1) ∧
    ((do_watch env w name st).1 = false →
      w_ht_get (do_watch env w name st).2.port_files name = none) := by
  obtain ⟨c, s, a⟩ := env
  cases hget : w_ht_get w.port_files name with
  | some f =>
    have h1 : do_watch (ArmEnv.mk c s a) w name st = (true, w) := by
      simp [do_watch, hget]
    rw [h1]
    exact ⟨by simp [hget], fun _ => countKey_eq_one_of_wf _ _ f hwf hget, by simp⟩
  | none =>
    cases c with
    | true =>
      have h1 : do_watch (ArmEnv.mk true s a) w name st = (false, w) := by
        simp [do_watch, hget]
      rw [h1]
      exact ⟨by simp [hget], by simp, fun _ => hget⟩
    | false =>
      cases s with
      | true =>
        have h1 : do_watch (ArmEnv.mk false true a) w name st = (false, w) := by
          simp [do_watch, hget]
        rw [h1]
        exact ⟨by simp [hget], by simp, fun _ => hget⟩
      | false =>
        cases a with
        | true =>
          have h1 : do_watch (ArmEnv.mk false false true) w name st =
              (false,
                PortFSWatcher.mk
                  (w_ht_del (w_ht_set w.port_files name (make_port_file name st)) name)) := by
            simp [do_watch, hget]
          rw [h1]
          exact ⟨by simp [w_ht_get_del_self], by simp,
            fun _ => w_ht_get_del_self _ _⟩
        | false =>
          have h1 : do_watch (ArmEnv.mk false false false) w name st =
              (true,
                PortFSWatcher.mk (w_ht_set w.port_files name (make_port_file name st))) := by
            simp [do_watch, hget]
          rw [h1]
          exact ⟨by simp [w_ht_get_set_self],
            fun _ => countKey_set_of_get_none _ _ _ hget, by simp⟩

/-- C9 witness: the return/registry agreement on a concrete fresh arm. -/
theorem do_watch_ret_iff_registered_witness :
    registryWF w0 ∧
    (((do_watch (ArmEnv.mk false false false) w0 "/r/b" stat0).1 = true ↔
       w_ht_get (do_watch (ArmEnv.mk false false false) w0 "/r/b"
         stat0).2.port_files "/r/b" ≠ none) ∧
     ((do_watch (ArmEnv.mk false false false) w0 "/r/b" stat0).1 = true →
       countKey (do_watch (ArmEnv.mk false false false) w0 "/r/b"
         stat0).2.port_files "/r/b" = 1) ∧
     ((do_watch (ArmEnv.mk false false false) w0 "/r/b" stat0).1 = false →
       w_ht_get (do_watch (ArmEnv.mk false false false) w0 "/r/b"
         stat0).2.port_files "/r/b" = none)) :=
  ⟨by decide, do_watch_ret_iff_registered (ArmEnv.mk false false false) w0 "/r/b" stat0
    (by decide)⟩

/-- C10: `consumeNotify` returns `true` exactly when `port_getn` succeeded,
at least one event was drained, and no drained event satisfies the root-loss
condition; in every non-fatal case — including root loss — it returns a
boolean, so root loss yields the same `false` as an empty drain or a
transient interruption. -/
theorem consumeNotify_ret_true_iff (env : DrainEnv) (w : PortFSWatcher)
    (root : WRoot) (coll : List PendingChangeRecord) :
    ((∃ out, consumeNotify env w root coll = Except.ok out ∧ out.ret = true) ↔
      (env.outcome = GetnOutcome.getnOk ∧
       env.pending.take WATCHMAN_BATCH_LIMIT ≠ [] ∧
       ∀ e ∈ env.pending.take WATCHMAN_BATCH_LIMIT, isRootLoss root e = false)) ∧
    (env.outcome ≠ GetnOutcome.getnOther →
      ∃ out, consumeNotify env w root coll = Except.ok out) := by
  cases houtcome : env.outcome with
  | getnEintr =>
    constructor
    · constructor
      · rintro ⟨out, hok, hret⟩
        rw [consumeNotify_getnEintr env w root coll houtcome] at hok
        cases hok
        cases hret
      · rintro ⟨hconflict, -⟩
        cases hconflict
    · exact fun _ => ⟨_, consumeNotify_getnEintr env w root coll houtcome⟩
  | getnOther =>
    constructor
    · constructor
      · rintro ⟨out, hok, -⟩
        rw [consumeNotify_getnOther env w root coll houtcome] at hok
        cases hok
      · rintro ⟨hconflict, -⟩
        cases hconflict
    · intro hne
      exact absurd rfl hne
  | getnOk =>
    by_cases hemp : env.pending.take WATCHMAN_BATCH_LIMIT = []
    · constructor
      · constructor
        · rintro ⟨out, hok, hret⟩
          rw [consumeNotify_getnOk_empty env w root coll houtcome hemp] at hok
          cases hok
          cases hret
        · rintro ⟨-, hne, -⟩
          exact absurd hemp hne
      · exact fun _ => ⟨_, consumeNotify_getnOk_empty env w root coll houtcome hemp⟩
    · constructor
      · rw [consumeNotify_getnOk_nonempty env w root coll houtcome hemp]
        constructor
        · rintro ⟨out, hok, hret⟩
          cases hok
          exact ⟨rfl, hemp,
            (consume_loop_ret_true_iff none root _ w coll).mp hret⟩
        · rintro ⟨-, -, hno⟩
          exact ⟨_, rfl, (consume_loop_ret_true_iff none root _ w coll).mpr hno⟩
      · exact fun _ => ⟨_, consumeNotify_getnOk_nonempty env w root coll houtcome hemp⟩

/-- C10 witness: the characterization applied at a concrete cancelling
batch — the arrow conjunct discharged at its concrete hypothesis. -/
theorem consumeNotify_ret_true_iff_witness :
    (DrainEnv.mk GetnOutcome.getnOk [evRootDel]).outcome ≠ GetnOutcome.getnOther ∧
    (∃ out, consumeNotify (DrainEnv.mk GetnOutcome.getnOk [evRootDel]) w0 root0 [] =
      Except.ok out) :=
  ⟨by decide,
    (consumeNotify_ret_true_iff (DrainEnv.mk GetnOutcome.getnOk [evRootDel]) w0 root0
      []).2 (by decide)⟩

end Watchman.PortFS
